import Mathlib

/-!
Verification of the batching-and-flush engine of a pino-to-CloudWatch
log transport (`src/dist/index.js`).

The buffer closure of the source (`addLog`, `getLogs`, `wipeLogs`,
`addErrorLog`, `orderLogs`, with captured state `lastFlush` and
`bufferedLogs`) is embedded as pure functions over an explicit state
record `SysState`.  The asynchronous environment (the producer loop,
the `setImmediate` retry of an overflowing append, and the throttled
`flush`) is embedded as a small-step transition system `step` /
`Reachable`: a `prod` event is one admission from the producer loop
(the producer awaits a triggered flush, hence its side condition), a
`retry` event is the execution of one scheduled `setImmediate` retry
(its boolean result is discarded, exactly as in the source), and a
`flushSucceed` event is one execution of the throttled flush whose
remote submission succeeds.  A flush whose submission fails is embedded
separately as `flushExec`, which mirrors the try/catch/finally body of
the source `flush` including the `addErrorLog` error sink and the
recursive inner flush.  `putEventLogs` is embedded over an explicit
remote-response parameter, and `parseLine` over an explicit parse
oracle, since the network and `JSON.parse` are outside the program.
-/

namespace PinoCloudwatch

/-- A log record: epoch-millisecond timestamp and raw message text. -/
structure Log where
  timestamp : Int
  message : String
deriving DecidableEq, Repr

/-- Source: `const MAX_EVENT_SIZE = (2 ** 10) * 256`. -/
def MAX_EVENT_SIZE : Nat := 2 ^ 10 * 256

/-- Source: `const MAX_BUFFER_LENGTH = 10000`. -/
def MAX_BUFFER_LENGTH : Nat := 10000

/-- Source: `const MAX_BUFFER_SIZE = 1048576`. -/
def MAX_BUFFER_SIZE : Nat := 1048576

/-- The cumulative size estimate of the buffer, as computed inline by
`reachedBufferSizeLimit`:
`bufferedLogs.reduce((acc, curr) => acc + curr.message.length + 26, 0)`. -/
def bufferSize (bufferedLogs : List Log) : Nat :=
  bufferedLogs.foldl (fun acc curr => acc + curr.message.length + 26) 0

/-- Source: `bufferedLogs.length === MAX_BUFFER_LENGTH`. -/
def reachedNumberOfLogsLimit (bufferedLogs : List Log) : Bool :=
  bufferedLogs.length == MAX_BUFFER_LENGTH

/-- Source: `(currentSize + newLog.message.length + 26) >= MAX_BUFFER_SIZE`. -/
def reachedBufferSizeLimit (bufferedLogs : List Log) (newLog : Log) : Bool :=
  decide (bufferSize bufferedLogs + newLog.message.length + 26 ≥ MAX_BUFFER_SIZE)

/-- Source: `log.message.length >= MAX_EVENT_SIZE`. -/
def logEventExceedsSize (log : Log) : Bool :=
  decide (log.message.length ≥ MAX_EVENT_SIZE)

/-- Source `shouldDoAPeriodicFlush`: reads `Date.now()`, compares the
elapsed time against `interval`, and overwrites `lastFlush` with `now`.
Returns (result, new `lastFlush`). -/
def shouldDoAPeriodicFlush (lastFlush now interval : Int) : Bool × Int :=
  (decide (now - lastFlush > interval), now)

/-- The mutable state of one transport instance, plus the bookkeeping an
execution needs: `bufferedLogs` and `lastFlush` are the closure variables
of the source; `pending` is the FIFO of appends rescheduled by
`setImmediate`; `flushReq` records that an admission returned `true` and
the producer is awaiting the triggered `flush`; `transmitted` is the
history of non-empty batches handed to `PutLogEventsCommand`. -/
structure SysState where
  bufferedLogs : List Log
  lastFlush : Int
  pending : List Log
  flushReq : Bool
  transmitted : List (List Log)
deriving Repr

/-- Source `addLog(log)`, as a pure function of the state, the current
wall clock `now` and the configured `interval`.  Returns the boolean
result (the flush trigger) and the updated state.  The `else` branch of
the source (`setImmediate(() => { addLog(log); }); return true;`)
appends the record to the `pending` retry queue.  The `||` of the source
short-circuits: when the count ceiling is reached the periodic check is
not evaluated and `lastFlush` is left unchanged. -/
def addLog (interval : Int) (st : SysState) (now : Int) (log : Log) :
    Bool × SysState :=
  if logEventExceedsSize log then
    (false, st)
  else if reachedBufferSizeLimit st.bufferedLogs log then
    (true, { st with pending := st.pending ++ [log] })
  else if reachedNumberOfLogsLimit (st.bufferedLogs ++ [log]) then
    (true, { st with bufferedLogs := st.bufferedLogs ++ [log] })
  else
    ((shouldDoAPeriodicFlush st.lastFlush now interval).1,
     { st with bufferedLogs := st.bufferedLogs ++ [log],
               lastFlush := (shouldDoAPeriodicFlush st.lastFlush now interval).2 })

/-- The comparison `(a, b) => a.timestamp - b.timestamp` used by the
source sort: `a` does not have to come after `b` exactly when the
comparator is non-positive, i.e. when `a.timestamp ≤ b.timestamp`. -/
def logLe (a b : Log) : Prop := a.timestamp ≤ b.timestamp

instance : DecidableRel logLe := fun a b => Int.decLe a.timestamp b.timestamp

instance : IsTotal Log logLe := ⟨fun a b => Int.le_total a.timestamp b.timestamp⟩

instance : IsTrans Log logLe := ⟨fun _ _ _ hab hbc => le_trans hab hbc⟩

/-- Source `orderLogs`: `getLogs().sort((a, b) => a.timestamp - b.timestamp)`.
ECMAScript `Array.prototype.sort` is a stable sort, and the comparator
orders records by ascending timestamp; a stable ascending sort is unique,
so it is embedded as insertion sort on the timestamp order. -/
def orderLogs (bufferedLogs : List Log) : List Log :=
  bufferedLogs.insertionSort logLe

/-- One execution of the throttled `flush` whose remote submission
succeeds: `orderLogs(); await putEventLogs(..., getLogs());` (a no-op
when the buffer is empty, otherwise the sorted batch is submitted) and
`finally { wipeLogs(); }`.  The awaited trigger, if any, is satisfied. -/
def flushStep (st : SysState) : SysState :=
  let sorted := orderLogs st.bufferedLogs
  { st with
    bufferedLogs := [],
    flushReq := false,
    transmitted :=
      if sorted.isEmpty then st.transmitted else st.transmitted ++ [sorted] }

/-- The events of one transport execution: `prod log now` is one
admission from the producer loop (`const shouldFlush = addLog(obj); if
(shouldFlush) { await flush(); }`), `retry now` executes the oldest
scheduled `setImmediate` retry, discarding its result, and
`flushSucceed` is one successful execution of the throttled flush. -/
inductive Event where
  | prod (log : Log) (now : Int)
  | retry (now : Int)
  | flushSucceed
deriving Repr

/-- The deterministic effect of one event on the state. -/
def step (interval : Int) (st : SysState) (e : Event) : SysState :=
  match e with
  | .prod log now =>
    let r := addLog interval st now log
    if r.1 then { r.2 with flushReq := true } else r.2
  | .retry now =>
    match st.pending with
    | [] => st
    | log :: rest =>
      (addLog interval { st with pending := rest } now log).2
  | .flushSucceed => flushStep st

/-- The state at transport construction: empty buffer, `lastFlush =
Date.now()` (the construction time `t0`), nothing scheduled, nothing
transmitted. -/
def initState (t0 : Int) : SysState :=
  ⟨[], t0, [], false, []⟩

/-- States reachable by some interleaving of producer admissions,
scheduled retries and successful flushes.  A producer admission can only
happen while no triggered flush is outstanding, because the producer
loop awaits `flush()` before reading the next record; a `setImmediate`
retry and a flush execution (from the throttle queue or from `close`)
can be scheduled at any point. -/
inductive Reachable (interval : Int) : SysState → Prop where
  | init (t0 : Int) : Reachable interval (initState t0)
  | prod {st : SysState} (log : Log) (now : Int) :
      Reachable interval st → st.flushReq = false →
      Reachable interval (step interval st (.prod log now))
  | retry {st : SysState} (now : Int) :
      Reachable interval st →
      Reachable interval (step interval st (.retry now))
  | flush {st : SysState} :
      Reachable interval st →
      Reachable interval (step interval st .flushSucceed)

/-- States reachable without ever executing a deferred (`setImmediate`)
retry: the producer admissions and flush executions alone. -/
inductive ReachableNR (interval : Int) : SysState → Prop where
  | init (t0 : Int) : ReachableNR interval (initState t0)
  | prod {st : SysState} (log : Log) (now : Int) :
      ReachableNR interval st → st.flushReq = false →
      ReachableNR interval (step interval st (.prod log now))
  | flush {st : SysState} :
      ReachableNR interval st →
      ReachableNR interval (step interval st .flushSucceed)

/-- The serialized message of a synthetic error record, as built by
`JSON.stringify({ message: <description>, error: e.message })` in the
source; the serialization itself is external, so it is embedded as the
literal JSON text it produces for plain string fields. -/
def errorLogMessage (description errDetail : String) : String :=
  "\x7b\"message\":\"" ++ description ++ "\",\"error\":\"" ++ errDetail ++ "\"\x7d"

/-- The outcome of one `PutLogEventsCommand` round-trip, supplied by the
environment: the service accepts the batch and returns the next token,
rejects it with `InvalidSequenceTokenException` carrying the expected
token, or fails with any other error. -/
inductive PutOutcome where
  | success (nextSequenceToken : Option String)
  | invalidSequenceToken (expectedSequenceToken : Option String)
  | otherError (name : String)
deriving Repr

/-- The result of source `putEventLogs`: the held `sequenceToken` after
the call, the error it re-throws (if any), and the submissions it made,
each recorded with the token it was submitted under. -/
structure PutRes where
  sequenceToken : Option String
  raised : Option String
  submissions : List (Option String × List Log)
deriving Repr, DecidableEq

/-- Source `putEventLogs(logGroupName, logStreamName, logEvents)`: an
empty batch returns at once without touching the remote service; a
non-empty batch is submitted once with the currently held token; on
success the returned `nextSequenceToken` is adopted; on
`InvalidSequenceTokenException` the `expectedSequenceToken` from the
rejection is adopted and nothing is raised; any other error is
re-thrown with the token unchanged. -/
def putEventLogs (sequenceToken : Option String) (logEvents : List Log)
    (outcome : PutOutcome) : PutRes :=
  if logEvents.length = 0 then
    ⟨sequenceToken, none, []⟩
  else
    match outcome with
    | .success next => ⟨next, none, [(sequenceToken, logEvents)]⟩
    | .invalidSequenceToken expected =>
        ⟨expected, none, [(sequenceToken, logEvents)]⟩
    | .otherError n => ⟨sequenceToken, some n, [(sequenceToken, logEvents)]⟩

/-- The outcome of one remote submission as seen by `flush`: either
`putEventLogs` returns normally, or it throws (any error other than a
token conflict) with the given `e.message`. -/
inductive SubmitOutcome where
  | accepted
  | failure (errDetail : String)
deriving Repr

/-- One execution of the body of the throttled `flush`, with the
environment's per-submission outcomes supplied as a list (one consumed
per non-empty submission) and recursion fuel for the inner flush that
`addErrorLog` can await:

`try { orderLogs(); await putEventLogs(..., getLogs()); }`
`catch (e) { await addErrorLog({ message: ..., error: e.message }); }`
`finally { wipeLogs(); }`

where `addErrorLog` is `const shouldFlush = addLog({ timestamp:
Date.now(), message: JSON.stringify(errorLog) }); if (shouldFlush) {
await flush(); }`.  `transmitted` records only batches the service
accepted.  With fuel `0` the inner flush is not expanded (never the
case in the theorems below). -/
def flushExec (interval : Int) : Nat → SysState → Int → List SubmitOutcome → SysState
  | 0, st, _, _ => st
  | fuel + 1, st, now, outcomes =>
    let sorted := orderLogs st.bufferedLogs
    let st1 : SysState := { st with bufferedLogs := sorted }
    if sorted.isEmpty then
      { st1 with bufferedLogs := [], flushReq := false }
    else
      match outcomes with
      | .failure errDetail :: rest =>
        let errLog : Log :=
          ⟨now, errorLogMessage "pino-cloudwatch-transport flushing error" errDetail⟩
        let r := addLog interval st1 now errLog
        let st3 := if r.1 then flushExec interval fuel r.2 now rest else r.2
        { st3 with bufferedLogs := [], flushReq := false }
      | _ =>
        { st1 with
          bufferedLogs := [],
          flushReq := false,
          transmitted := st1.transmitted ++ [sorted] }

/-- The structured value produced by a successful `JSON.parse` of an
input line, restricted to what `parseLine` reads from it: its `time`
field, when the value has one. -/
structure JsValue where
  time : Option Int
deriving Repr, DecidableEq

/-- The JavaScript expression `value.time || Date.now()`: the `time`
field when it is present and truthy (a number is falsy exactly when it
is `0`), and the current time otherwise. -/
def jsTimeOrNow (time : Option Int) (now : Int) : Int :=
  match time with
  | some v => if v = 0 then now else v
  | none => now

/-- Source `parseLine`: `JSON.parse(line)` is attempted (its outcome is
the external oracle `parsed`; `none` is a parse failure, in which case
the source substitutes the string `'{}'`, which has no `time` field);
the produced record is `{ timestamp: value.time || Date.now(), message:
line }` — the message is always the raw line. -/
def parseLine (line : String) (parsed : Option JsValue) (now : Int) : Log :=
  let time : Option Int :=
    match parsed with
    | some v => v.time
    | none => none
  ⟨jsTimeOrNow time now, line⟩

/-- A message of exactly `n` characters, for concrete test records. -/
def mkMsg (n : Nat) : String :=
  String.mk (List.replicate n 'a')

/-- A record with an empty message (estimated cost 26 bytes). -/
def emp : Log := ⟨0, ""⟩

/-- A record one character below the per-record ceiling
(estimated cost 262169 bytes). -/
def bigLog : Log := ⟨0, mkMsg 262143⟩

/-! ### Basic facts about the size estimate and test records -/

theorem bufferSize_foldl (l : List Log) (a : Nat) :
    l.foldl (fun acc curr => acc + curr.message.length + 26) a = a + bufferSize l := by
  induction l generalizing a with
  | nil => simp [bufferSize]
  | cons x xs ih =>
    simp only [bufferSize, List.foldl_cons]
    rw [ih, ih]
    omega

theorem bufferSize_nil : bufferSize [] = 0 := rfl

theorem bufferSize_cons (x : Log) (l : List Log) :
    bufferSize (x :: l) = x.message.length + 26 + bufferSize l := by
  have h := bufferSize_foldl l (0 + x.message.length + 26)
  simp only [bufferSize] at h ⊢
  rw [List.foldl_cons]
  omega

theorem bufferSize_append (l₁ l₂ : List Log) :
    bufferSize (l₁ ++ l₂) = bufferSize l₁ + bufferSize l₂ := by
  have h := bufferSize_foldl l₂ (bufferSize l₁)
  simp only [bufferSize] at h ⊢
  rw [List.foldl_append]
  omega

theorem bufferSize_eq_sum (l : List Log) :
    bufferSize l = (l.map fun c => c.message.length + 26).sum := by
  induction l with
  | nil => simp [bufferSize]
  | cons x xs ih => rw [bufferSize_cons, List.map_cons, List.sum_cons, ih]

theorem bufferSize_perm {l₁ l₂ : List Log} (h : l₁.Perm l₂) :
    bufferSize l₁ = bufferSize l₂ := by
  rw [bufferSize_eq_sum, bufferSize_eq_sum]
  exact (h.map _).sum_eq

theorem mkMsg_length (n : Nat) : (mkMsg n).length = n := by
  simp [mkMsg, String.length]

theorem emp_message_length : emp.message.length = 0 := rfl

theorem bigLog_message_length : bigLog.message.length = 262143 := by
  simp [bigLog, mkMsg_length]

theorem bufferSize_replicate_emp (n : Nat) :
    bufferSize (List.replicate n emp) = 26 * n := by
  induction n with
  | zero => simp [bufferSize]
  | succ k ih =>
    rw [List.replicate_succ, bufferSize_cons, ih, emp_message_length]
    omega

/-! ### Facts about `orderLogs` -/

theorem orderLogs_perm (l : List Log) : (orderLogs l).Perm l :=
  List.perm_insertionSort _ l

theorem orderLogs_length (l : List Log) : (orderLogs l).length = l.length :=
  (orderLogs_perm l).length_eq

theorem orderLogs_bufferSize (l : List Log) : bufferSize (orderLogs l) = bufferSize l :=
  bufferSize_perm (orderLogs_perm l)

theorem orderLogs_mem {l : List Log} {x : Log} : x ∈ orderLogs l ↔ x ∈ l :=
  (orderLogs_perm l).mem_iff

theorem orderLogs_sorted (l : List Log) : (orderLogs l).Sorted logLe :=
  List.sorted_insertionSort logLe l

theorem filter_orderedInsert_pos (t : Int) (a : Log) (ha : a.timestamp = t) :
    ∀ l : List Log,
      (l.orderedInsert logLe a).filter (fun x => x.timestamp == t) =
        a :: l.filter (fun x => x.timestamp == t)
  | [] => by simp [List.orderedInsert, ha]
  | b :: l => by
    by_cases hab : logLe a b
    · simp [List.orderedInsert, hab, List.filter_cons, ha]
    · have hbt : (b.timestamp == t) = false := by
        simp only [beq_eq_false_iff_ne, ne_eq]
        intro hb
        exact hab (by simp [logLe, hb, ha])
      simp [List.orderedInsert, hab, List.filter_cons, hbt,
        filter_orderedInsert_pos t a ha l]

theorem filter_orderedInsert_neg (t : Int) (a : Log) (ha : a.timestamp ≠ t) :
    ∀ l : List Log,
      (l.orderedInsert logLe a).filter (fun x => x.timestamp == t) =
        l.filter (fun x => x.timestamp == t)
  | [] => by simp [List.orderedInsert, ha]
  | b :: l => by
    by_cases hab : logLe a b
    · simp [List.orderedInsert, hab, List.filter_cons, ha]
    · simp [List.orderedInsert, hab, List.filter_cons,
        filter_orderedInsert_neg t a ha l]

theorem orderLogs_stable (l : List Log) (t : Int) :
    (orderLogs l).filter (fun x => x.timestamp == t) =
      l.filter (fun x => x.timestamp == t) := by
  induction l with
  | nil => rfl
  | cons a l ih =>
    simp only [orderLogs, List.insertionSort] at ih ⊢
    by_cases ha : a.timestamp = t
    · rw [filter_orderedInsert_pos t a ha, ih, List.filter_cons]
      simp [ha]
    · rw [filter_orderedInsert_neg t a ha, ih, List.filter_cons]
      simp [ha]

/-! ### Branch characterizations of `addLog` -/

theorem addLog_drop (interval : Int) (st : SysState) (now : Int) (log : Log)
    (h : MAX_EVENT_SIZE ≤ log.message.length) :
    addLog interval st now log = (false, st) := by
  unfold addLog
  rw [if_pos]
  simp [logEventExceedsSize, h]

theorem addLog_defer (interval : Int) (st : SysState) (now : Int) (log : Log)
    (h1 : log.message.length < MAX_EVENT_SIZE)
    (h2 : MAX_BUFFER_SIZE ≤ bufferSize st.bufferedLogs + log.message.length + 26) :
    addLog interval st now log = (true, { st with pending := st.pending ++ [log] }) := by
  unfold addLog
  rw [if_neg, if_pos]
  · simp [reachedBufferSizeLimit, h2]
  · simp [logEventExceedsSize]
    omega

theorem addLog_admit_count (interval : Int) (st : SysState) (now : Int) (log : Log)
    (h1 : log.message.length < MAX_EVENT_SIZE)
    (h2 : bufferSize st.bufferedLogs + log.message.length + 26 < MAX_BUFFER_SIZE)
    (h3 : st.bufferedLogs.length + 1 = MAX_BUFFER_LENGTH) :
    addLog interval st now log =
      (true, { st with bufferedLogs := st.bufferedLogs ++ [log] }) := by
  unfold addLog
  rw [if_neg, if_neg, if_pos]
  · simp [reachedNumberOfLogsLimit, h3]
  · simp [reachedBufferSizeLimit]
    omega
  · simp [logEventExceedsSize]
    omega

theorem addLog_admit_quiet (interval : Int) (st : SysState) (now : Int) (log : Log)
    (h1 : log.message.length < MAX_EVENT_SIZE)
    (h2 : bufferSize st.bufferedLogs + log.message.length + 26 < MAX_BUFFER_SIZE)
    (h3 : st.bufferedLogs.length + 1 ≠ MAX_BUFFER_LENGTH)
    (h4 : ¬ now - st.lastFlush > interval) :
    addLog interval st now log =
      (false, { st with bufferedLogs := st.bufferedLogs ++ [log], lastFlush := now }) := by
  unfold addLog
  rw [if_neg, if_neg, if_neg]
  · simp [shouldDoAPeriodicFlush, h4]
  · simp [reachedNumberOfLogsLimit, h3]
  · simp [reachedBufferSizeLimit]
    omega
  · simp [logEventExceedsSize]
    omega

theorem addLog_admit_periodic (interval : Int) (st : SysState) (now : Int) (log : Log)
    (h1 : log.message.length < MAX_EVENT_SIZE)
    (h2 : bufferSize st.bufferedLogs + log.message.length + 26 < MAX_BUFFER_SIZE)
    (h3 : st.bufferedLogs.length + 1 ≠ MAX_BUFFER_LENGTH)
    (h4 : now - st.lastFlush > interval) :
    addLog interval st now log =
      (true, { st with bufferedLogs := st.bufferedLogs ++ [log], lastFlush := now }) := by
  unfold addLog
  rw [if_neg, if_neg, if_neg]
  · simp [shouldDoAPeriodicFlush, h4]
  · simp [reachedNumberOfLogsLimit, h3]
  · simp [reachedBufferSizeLimit]
    omega
  · simp [logEventExceedsSize]
    omega

/-! ### Preservation lemmas for `addLog` and `step` -/

theorem addLog_frame (interval : Int) (st : SysState) (now : Int) (log : Log) :
    (addLog interval st now log).2.transmitted = st.transmitted ∧
      (addLog interval st now log).2.flushReq = st.flushReq := by
  unfold addLog
  split
  · exact ⟨rfl, rfl⟩
  · split
    · exact ⟨rfl, rfl⟩
    · split
      · exact ⟨rfl, rfl⟩
      · exact ⟨rfl, rfl⟩

theorem addLog_size_lt (interval : Int) (st : SysState) (now : Int) (log : Log)
    (h : bufferSize st.bufferedLogs < MAX_BUFFER_SIZE) :
    bufferSize (addLog interval st now log).2.bufferedLogs < MAX_BUFFER_SIZE := by
  unfold addLog
  split
  · exact h
  · split
    next hsz =>
      exact h
    next hsz =>
      have hlt : bufferSize st.bufferedLogs + log.message.length + 26 < MAX_BUFFER_SIZE := by
        simpa [reachedBufferSizeLimit] using hsz
      have hb : bufferSize (st.bufferedLogs ++ [log]) =
          bufferSize st.bufferedLogs + log.message.length + 26 := by
        rw [bufferSize_append, bufferSize_cons]
        simp [bufferSize]
        omega
      split
      · simpa [hb] using hlt
      · simpa [hb] using hlt

theorem addLog_event_bound (interval : Int) (st : SysState) (now : Int) (log : Log)
    (hb : ∀ l ∈ st.bufferedLogs, l.message.length < MAX_EVENT_SIZE)
    (hp : ∀ l ∈ st.pending, l.message.length < MAX_EVENT_SIZE) :
    (∀ l ∈ (addLog interval st now log).2.bufferedLogs, l.message.length < MAX_EVENT_SIZE) ∧
      ∀ l ∈ (addLog interval st now log).2.pending, l.message.length < MAX_EVENT_SIZE := by
  unfold addLog
  split
  · exact ⟨hb, hp⟩
  next hov =>
    have hlog : log.message.length < MAX_EVENT_SIZE := by
      simpa [logEventExceedsSize] using hov
    split
    · refine ⟨hb, ?_⟩
      intro l hl
      simp only [SysState.mk.injEq] at *
      rcases List.mem_append.1 hl with h' | h'
      · exact hp l h'
      · simp at h'
        simpa [h'] using hlog
    · have hbuf : ∀ l ∈ st.bufferedLogs ++ [log], l.message.length < MAX_EVENT_SIZE := by
        intro l hl
        rcases List.mem_append.1 hl with h' | h'
        · exact hb l h'
        · simp at h'
          simpa [h'] using hlog
      split
      · exact ⟨hbuf, hp⟩
      · exact ⟨hbuf, hp⟩

theorem addLog_len (interval : Int) (st : SysState) (now : Int) (log : Log) :
    (addLog interval st now log).2.bufferedLogs.length ≤ st.bufferedLogs.length + 1 := by
  unfold addLog
  split
  · simp
  · split
    · simp
    · split <;> simp

theorem addLog_false_count (interval : Int) (st : SysState) (now : Int) (log : Log)
    (h : (addLog interval st now log).1 = false) :
    (addLog interval st now log).2.bufferedLogs = st.bufferedLogs ∨
      ((addLog interval st now log).2.bufferedLogs = st.bufferedLogs ++ [log] ∧
        st.bufferedLogs.length + 1 ≠ MAX_BUFFER_LENGTH) := by
  by_cases h1 : logEventExceedsSize log = true
  · left
    unfold addLog
    rw [if_pos h1]
  · by_cases h2 : reachedBufferSizeLimit st.bufferedLogs log = true
    · exfalso
      unfold addLog at h
      rw [if_neg h1, if_pos h2] at h
      simp at h
    · by_cases h3 : reachedNumberOfLogsLimit (st.bufferedLogs ++ [log]) = true
      · exfalso
        unfold addLog at h
        rw [if_neg h1, if_neg h2, if_pos h3] at h
        simp at h
      · right
        constructor
        · unfold addLog
          rw [if_neg h1, if_neg h2, if_neg h3]
        · simp only [reachedNumberOfLogsLimit, beq_iff_eq, List.length_append,
            List.length_cons, List.length_nil] at h3
          simpa using h3

theorem step_prod_components (interval : Int) (st : SysState) (now : Int) (log : Log) :
    (step interval st (.prod log now)).bufferedLogs =
        (addLog interval st now log).2.bufferedLogs ∧
      (step interval st (.prod log now)).pending =
        (addLog interval st now log).2.pending ∧
      (step interval st (.prod log now)).transmitted =
        (addLog interval st now log).2.transmitted := by
  simp only [step]
  split <;> exact ⟨rfl, rfl, rfl⟩

/-! ### Global invariants of the transition system -/

/-- Invariant of every reachable state (any interleaving): the size
estimate of the buffer is strictly below the batch byte ceiling, every
record in the buffer, in the retry queue or in any submitted batch is
strictly below the per-record ceiling, and every submitted batch has a
size estimate strictly below the byte ceiling. -/
theorem reachable_inv (interval : Int) {st : SysState}
    (h : Reachable interval st) :
    bufferSize st.bufferedLogs < MAX_BUFFER_SIZE ∧
      (∀ l ∈ st.bufferedLogs, l.message.length < MAX_EVENT_SIZE) ∧
      (∀ l ∈ st.pending, l.message.length < MAX_EVENT_SIZE) ∧
      ∀ b ∈ st.transmitted,
        bufferSize b < MAX_BUFFER_SIZE ∧
          ∀ l ∈ b, l.message.length < MAX_EVENT_SIZE := by
  induction h with
  | init t0 =>
    refine ⟨?_, ?_, ?_, ?_⟩ <;> simp [initState, bufferSize, MAX_BUFFER_SIZE]
  | prod log now h hfr ih =>
    rename_i st'
    obtain ⟨ihs, ihb, ihp, iht⟩ := ih
    obtain ⟨hb, hp, ht⟩ := step_prod_components interval st' now log
    rw [hb, hp, ht, (addLog_frame interval st' now log).1]
    have hev := addLog_event_bound interval st' now log ihb ihp
    exact ⟨addLog_size_lt interval st' now log ihs, hev.1, hev.2, iht⟩
  | retry now h ih =>
    rename_i st'
    obtain ⟨ihs, ihb, ihp, iht⟩ := ih
    simp only [step]
    split
    · exact ⟨ihs, ihb, ihp, iht⟩
    next log rest hpend =>
      have hp' : ∀ l ∈ rest, l.message.length < MAX_EVENT_SIZE := by
        intro l hl
        exact ihp l (by rw [hpend]; exact List.mem_cons_of_mem _ hl)
      have hev := addLog_event_bound interval { st' with pending := rest } now log ihb hp'
      refine ⟨addLog_size_lt interval _ now log ihs, hev.1, hev.2, ?_⟩
      rw [(addLog_frame interval { st' with pending := rest } now log).1]
      exact iht
  | flush h ih =>
    rename_i st'
    obtain ⟨ihs, ihb, ihp, iht⟩ := ih
    simp only [step, flushStep]
    refine ⟨by simp [bufferSize, MAX_BUFFER_SIZE], by simp, ihp, ?_⟩
    split
    · exact iht
    · intro b hbmem
      rcases List.mem_append.1 hbmem with h' | h'
      · exact iht b h'
      · simp only [List.mem_singleton] at h'
        subst h'
        refine ⟨by rw [orderLogs_bufferSize]; exact ihs, ?_⟩
        intro l hl
        exact ihb l (orderLogs_mem.1 hl)

/-- Invariant of every state reachable without deferred retries: the
buffer length never exceeds the count ceiling, it is strictly below the
ceiling whenever no triggered flush is outstanding, and every submitted
batch is within the count ceiling. -/
theorem reachableNR_inv (interval : Int) {st : SysState}
    (h : ReachableNR interval st) :
    st.bufferedLogs.length ≤ MAX_BUFFER_LENGTH ∧
      (st.flushReq = false → st.bufferedLogs.length < MAX_BUFFER_LENGTH) ∧
      ∀ b ∈ st.transmitted, b.length ≤ MAX_BUFFER_LENGTH := by
  induction h with
  | init t0 =>
    refine ⟨?_, ?_, ?_⟩ <;> simp [initState, MAX_BUFFER_LENGTH]
  | prod log now h hfr ih =>
    rename_i st'
    obtain ⟨ihl, ihq, iht⟩ := ih
    have hlt : st'.bufferedLogs.length < MAX_BUFFER_LENGTH := ihq hfr
    obtain ⟨hb, hp, ht⟩ := step_prod_components interval st' now log
    have hlen := addLog_len interval st' now log
    refine ⟨by rw [hb]; omega, ?_, by rw [ht, (addLog_frame interval st' now log).1]; exact iht⟩
    intro hq
    rw [hb]
    by_cases hr : (addLog interval st' now log).1 = true
    · exfalso
      have : (step interval st' (.prod log now)).flushReq = true := by
        simp [step, hr]
      rw [hq] at this
      exact Bool.false_ne_true this
    · have hr' : (addLog interval st' now log).1 = false := by
        simpa using hr
      rcases addLog_false_count interval st' now log hr' with hsame | ⟨hpush, hne⟩
      · rw [hsame]; exact hlt
      · rw [hpush]
        simp only [List.length_append, List.length_cons, List.length_nil]
        omega
  | flush h ih =>
    rename_i st'
    obtain ⟨ihl, ihq, iht⟩ := ih
    simp only [step, flushStep]
    refine ⟨by simp [MAX_BUFFER_LENGTH], by simp [MAX_BUFFER_LENGTH], ?_⟩
    split
    · exact iht
    · intro b hbmem
      rcases List.mem_append.1 hbmem with h' | h'
      · exact iht b h'
      · simp only [List.mem_singleton] at h'
        subst h'
        rw [orderLogs_length]
        exact ihl

/-! ### Characterizations of single events, and runs of small admissions -/

theorem step_prod_quiet {interval : Int} {st : SysState} {now : Int} {log : Log}
    (h1 : log.message.length < MAX_EVENT_SIZE)
    (h2 : bufferSize st.bufferedLogs + log.message.length + 26 < MAX_BUFFER_SIZE)
    (h3 : st.bufferedLogs.length + 1 ≠ MAX_BUFFER_LENGTH)
    (h4 : ¬ now - st.lastFlush > interval) :
    step interval st (.prod log now) =
      { st with bufferedLogs := st.bufferedLogs ++ [log], lastFlush := now } := by
  simp [step, addLog_admit_quiet interval st now log h1 h2 h3 h4]

theorem step_prod_defer {interval : Int} {st : SysState} {now : Int} {log : Log}
    (h1 : log.message.length < MAX_EVENT_SIZE)
    (h2 : MAX_BUFFER_SIZE ≤ bufferSize st.bufferedLogs + log.message.length + 26) :
    step interval st (.prod log now) =
      { st with pending := st.pending ++ [log], flushReq := true } := by
  simp [step, addLog_defer interval st now log h1 h2]

theorem step_retry_cons {interval : Int} {st : SysState} {now : Int}
    {log : Log} {rest : List Log} (h : st.pending = log :: rest) :
    step interval st (.retry now) =
      (addLog interval { st with pending := rest } now log).2 := by
  simp [step, h]

theorem step_flush (interval : Int) (st : SysState) :
    step interval st .flushSucceed = flushStep st := rfl

theorem emp_small : emp.message.length < MAX_EVENT_SIZE := by
  simp [emp_message_length, MAX_EVENT_SIZE]

theorem bigLog_small : bigLog.message.length < MAX_EVENT_SIZE := by
  rw [bigLog_message_length]
  norm_num [MAX_EVENT_SIZE]

/-- From any reachable quiescent state (no outstanding flush, reference
time `0`), the producer can admit `n` empty-message records back to
back (all at wall-clock `0`), none of which triggers, provided the
count stays below the ceiling and the size estimate below the byte
ceiling throughout. -/
theorem reach_emp_run (n : Nat) :
    ∀ (b p : List Log) (tr : List (List Log)),
      Reachable 1000 ⟨b, 0, p, false, tr⟩ →
      b.length + n ≤ 9999 →
      bufferSize b + 26 * n < MAX_BUFFER_SIZE →
      Reachable 1000 ⟨b ++ List.replicate n emp, 0, p, false, tr⟩ := by
  induction n with
  | zero =>
    intro b p tr h _ _
    simpa using h
  | succ k ih =>
    intro b p tr h hlen hsz
    have hstep : step 1000 (⟨b, 0, p, false, tr⟩ : SysState) (.prod emp 0) =
        ⟨b ++ [emp], 0, p, false, tr⟩ := by
      rw [step_prod_quiet emp_small ?_ ?_ ?_]
      · simp [emp_message_length]
        change bufferSize b + 0 + 26 < MAX_BUFFER_SIZE
        omega
      · show b.length + 1 ≠ MAX_BUFFER_LENGTH
        simp only [MAX_BUFFER_LENGTH]
        omega
      · show ¬ (0 : Int) - 0 > 1000
        norm_num
    have hre : Reachable 1000 (⟨b ++ [emp], 0, p, false, tr⟩ : SysState) := by
      have := Reachable.prod emp 0 h rfl
      rwa [hstep] at this
    have hlen' : (b ++ [emp]).length + k ≤ 9999 := by
      simp only [List.length_append, List.length_cons, List.length_nil]
      omega
    have hsz' : bufferSize (b ++ [emp]) + 26 * k < MAX_BUFFER_SIZE := by
      rw [bufferSize_append, bufferSize_cons, bufferSize_nil, emp_message_length]
      omega
    have hfin := ih (b ++ [emp]) p tr hre hlen' hsz'
    have heq : (b ++ [emp]) ++ List.replicate k emp = b ++ List.replicate (k + 1) emp := by
      rw [List.replicate_succ, List.append_assoc]
      rfl
    rwa [heq] at hfin

/-! ### Concrete size computations for the trace arguments -/

theorem bufferSize_one_big : bufferSize [bigLog] = 262169 := by
  rw [bufferSize_cons, bufferSize_nil, bigLog_message_length]

theorem bufferSize_two_big : bufferSize [bigLog, bigLog] = 524338 := by
  rw [bufferSize_cons, bufferSize_one_big, bigLog_message_length]

theorem bufferSize_three_big : bufferSize [bigLog, bigLog, bigLog] = 786507 := by
  rw [bufferSize_cons, bufferSize_two_big, bigLog_message_length]

theorem bufferSize_replicate_9999 : bufferSize (List.replicate 9999 emp) = 259974 := by
  rw [bufferSize_replicate_emp]

theorem bufferSize_bufE :
    bufferSize (List.replicate 9999 emp ++ [bigLog]) = 522143 := by
  rw [bufferSize_append, bufferSize_replicate_9999, bufferSize_one_big]

theorem bufferSize_bufF :
    bufferSize ((List.replicate 9999 emp ++ [bigLog]) ++ [bigLog]) = 784312 := by
  rw [bufferSize_append, bufferSize_bufE, bufferSize_one_big]

theorem bufferSize_bufG :
    bufferSize (((List.replicate 9999 emp ++ [bigLog]) ++ [bigLog]) ++ [bigLog]) = 1046481 := by
  rw [bufferSize_append, bufferSize_bufF, bufferSize_one_big]

theorem orderLogs_isEmpty_false {l : List Log} (h : l ≠ []) :
    (orderLogs l).isEmpty = false := by
  cases ho : orderLogs l with
  | nil =>
    have hl := orderLogs_length l
    rw [ho] at hl
    simp only [List.length_nil] at hl
    exact absurd (List.length_eq_zero.mp hl.symm) h
  | cons x xs => rfl

/-! ### Component-level step characterizations (stated over the fields of
a state literal, so that concrete instantiations match syntactically) -/

theorem step_prod_quiet_c (interval : Int) (b p : List Log) (tr : List (List Log))
    (lf now : Int) (fr : Bool) (log : Log)
    (h1 : log.message.length < MAX_EVENT_SIZE)
    (h2 : bufferSize b + log.message.length + 26 < MAX_BUFFER_SIZE)
    (h3 : b.length + 1 ≠ MAX_BUFFER_LENGTH)
    (h4 : ¬ now - lf > interval) :
    step interval ⟨b, lf, p, fr, tr⟩ (.prod log now) = ⟨b ++ [log], now, p, fr, tr⟩ :=
  step_prod_quiet h1 h2 h3 h4

theorem step_prod_defer_c (interval : Int) (b p : List Log) (tr : List (List Log))
    (lf now : Int) (fr : Bool) (log : Log)
    (h1 : log.message.length < MAX_EVENT_SIZE)
    (h2 : MAX_BUFFER_SIZE ≤ bufferSize b + log.message.length + 26) :
    step interval ⟨b, lf, p, fr, tr⟩ (.prod log now) = ⟨b, lf, p ++ [log], true, tr⟩ :=
  step_prod_defer h1 h2

theorem addLog_admit_count_c (interval : Int) (b p : List Log) (tr : List (List Log))
    (lf now : Int) (fr : Bool) (log : Log)
    (h1 : log.message.length < MAX_EVENT_SIZE)
    (h2 : bufferSize b + log.message.length + 26 < MAX_BUFFER_SIZE)
    (h3 : b.length + 1 = MAX_BUFFER_LENGTH) :
    addLog interval ⟨b, lf, p, fr, tr⟩ now log = (true, ⟨b ++ [log], lf, p, fr, tr⟩) :=
  addLog_admit_count interval ⟨b, lf, p, fr, tr⟩ now log h1 h2 h3

theorem step_retry_admit_count_c (interval : Int) (b rest : List Log)
    (tr : List (List Log)) (lf now : Int) (fr : Bool) (log : Log)
    (h1 : log.message.length < MAX_EVENT_SIZE)
    (h2 : bufferSize b + log.message.length + 26 < MAX_BUFFER_SIZE)
    (h3 : b.length + 1 = MAX_BUFFER_LENGTH) :
    step interval ⟨b, lf, log :: rest, fr, tr⟩ (.retry now) =
      ⟨b ++ [log], lf, rest, fr, tr⟩ := by
  rw [step_retry_cons rfl]
  show (addLog interval ⟨b, lf, rest, fr, tr⟩ now log).2 = ⟨b ++ [log], lf, rest, fr, tr⟩
  rw [addLog_admit_count_c interval b rest tr lf now fr log h1 h2 h3]

theorem step_flush_c (interval : Int) (b p : List Log) (tr : List (List Log))
    (lf : Int) (fr : Bool) (hb : b ≠ []) :
    step interval ⟨b, lf, p, fr, tr⟩ .flushSucceed =
      ⟨[], lf, p, false, tr ++ [orderLogs b]⟩ := by
  rw [step_flush]
  simp only [flushStep]
  rw [orderLogs_isEmpty_false hb]
  simp

/-- A schedulable execution in which a flush transmits 10002 records:
three near-ceiling records are admitted, a fourth overflows the byte
ceiling and is deferred, the triggered flush empties the buffer, the
producer then admits 9999 empty records before the deferred retry runs
(`setImmediate` callbacks wait for the macrotask queue, which a stream
of buffered input lines can starve), the retry lands as the 10000th
record — its `true` trigger result is discarded — and three further
producer appends (two admitted, one overflowing and hence triggering)
leave 10002 records in the buffer for the final flush. -/
theorem reach_trace_final :
    Reachable 1000
      (⟨[], 0, [bigLog], false,
        [[bigLog, bigLog, bigLog],
          orderLogs (((List.replicate 9999 emp ++ [bigLog]) ++ [bigLog]) ++ [bigLog])]⟩ :
        SysState) := by
  -- Phase A: three big admissions, no trigger.
  have r0 : Reachable 1000 (⟨[], 0, [], false, []⟩ : SysState) := Reachable.init 0
  have s1 := step_prod_quiet_c 1000 [] [] [] 0 0 false bigLog bigLog_small
    (by rw [bufferSize_nil, bigLog_message_length]; norm_num [MAX_BUFFER_SIZE])
    (by norm_num [MAX_BUFFER_LENGTH])
    (by norm_num)
  have r1 : Reachable 1000 (⟨[bigLog], 0, [], false, []⟩ : SysState) := by
    have h := Reachable.prod bigLog 0 r0 rfl
    rw [s1] at h
    exact h
  have s2 := step_prod_quiet_c 1000 [bigLog] [] [] 0 0 false bigLog bigLog_small
    (by rw [bufferSize_one_big, bigLog_message_length]; norm_num [MAX_BUFFER_SIZE])
    (by norm_num [MAX_BUFFER_LENGTH])
    (by norm_num)
  have r2 : Reachable 1000 (⟨[bigLog, bigLog], 0, [], false, []⟩ : SysState) := by
    have h := Reachable.prod bigLog 0 r1 rfl
    rw [s2] at h
    exact h
  have s3 := step_prod_quiet_c 1000 [bigLog, bigLog] [] [] 0 0 false bigLog bigLog_small
    (by rw [bufferSize_two_big, bigLog_message_length]; norm_num [MAX_BUFFER_SIZE])
    (by norm_num [MAX_BUFFER_LENGTH])
    (by norm_num)
  have r3 : Reachable 1000 (⟨[bigLog, bigLog, bigLog], 0, [], false, []⟩ : SysState) := by
    have h := Reachable.prod bigLog 0 r2 rfl
    rw [s3] at h
    exact h
  -- Phase B: a fourth big record overflows the byte ceiling and is deferred.
  have s4 := step_prod_defer_c 1000 [bigLog, bigLog, bigLog] [] [] 0 0 false bigLog
    bigLog_small
    (by rw [bufferSize_three_big, bigLog_message_length]; norm_num [MAX_BUFFER_SIZE])
  have r4 : Reachable 1000
      (⟨[bigLog, bigLog, bigLog], 0, [bigLog], true, []⟩ : SysState) := by
    have h := Reachable.prod bigLog 0 r3 rfl
    rw [s4] at h
    exact h
  -- Phase C: the triggered flush transmits the three records.
  have s5 := step_flush_c 1000 [bigLog, bigLog, bigLog] [bigLog] [] 0 true
    (by simp)
  have r5 : Reachable 1000
      (⟨[], 0, [bigLog], false, [orderLogs [bigLog, bigLog, bigLog]]⟩ : SysState) := by
    have h := Reachable.flush r4
    rw [s5] at h
    exact h
  have horder3 : orderLogs [bigLog, bigLog, bigLog] = [bigLog, bigLog, bigLog] := by
    apply List.Sorted.insertionSort_eq
    simp [List.sorted_cons, logLe]
  rw [horder3] at r5
  -- Phase D: 9999 empty admissions before the retry runs.
  have r6 : Reachable 1000
      (⟨List.replicate 9999 emp, 0, [bigLog], false,
        [[bigLog, bigLog, bigLog]]⟩ : SysState) := by
    have h := reach_emp_run 9999 [] [bigLog] [[bigLog, bigLog, bigLog]] r5
      (by norm_num) (by rw [bufferSize_nil]; norm_num [MAX_BUFFER_SIZE])
    exact h
  -- Phase E: the deferred retry lands as the 10000th record; its result
  -- is discarded, and no flush is requested.
  have sE := step_retry_admit_count_c 1000 (List.replicate 9999 emp) []
    [[bigLog, bigLog, bigLog]] 0 0 false bigLog bigLog_small
    (by rw [bufferSize_replicate_9999, bigLog_message_length]; norm_num [MAX_BUFFER_SIZE])
    (by rw [List.length_replicate]; norm_num [MAX_BUFFER_LENGTH])
  have r7 : Reachable 1000
      (⟨List.replicate 9999 emp ++ [bigLog], 0, [], false,
        [[bigLog, bigLog, bigLog]]⟩ : SysState) := by
    have h := Reachable.retry 0 r6
    rw [sE] at h
    exact h
  -- Phase F: an admitted producer append brings the count to 10001; the
  -- equality test against the count ceiling is now false.
  have sF := step_prod_quiet_c 1000 (List.replicate 9999 emp ++ [bigLog]) []
    [[bigLog, bigLog, bigLog]] 0 0 false bigLog bigLog_small
    (by rw [bufferSize_bufE, bigLog_message_length]; norm_num [MAX_BUFFER_SIZE])
    (by simp only [List.length_append, List.length_replicate, List.length_cons,
          List.length_nil]
        norm_num [MAX_BUFFER_LENGTH])
    (by norm_num)
  have r8 : Reachable 1000
      (⟨(List.replicate 9999 emp ++ [bigLog]) ++ [bigLog], 0, [], false,
        [[bigLog, bigLog, bigLog]]⟩ : SysState) := by
    have h := Reachable.prod bigLog 0 r7 rfl
    rw [sF] at h
    exact h
  -- Phase G: another admitted append, count 10002.
  have sG := step_prod_quiet_c 1000 ((List.replicate 9999 emp ++ [bigLog]) ++ [bigLog]) []
    [[bigLog, bigLog, bigLog]] 0 0 false bigLog bigLog_small
    (by rw [bufferSize_bufF, bigLog_message_length]; norm_num [MAX_BUFFER_SIZE])
    (by simp only [List.length_append, List.length_replicate, List.length_cons,
          List.length_nil]
        norm_num [MAX_BUFFER_LENGTH])
    (by norm_num)
  have r9 : Reachable 1000
      (⟨((List.replicate 9999 emp ++ [bigLog]) ++ [bigLog]) ++ [bigLog], 0, [], false,
        [[bigLog, bigLog, bigLog]]⟩ : SysState) := by
    have h := Reachable.prod bigLog 0 r8 rfl
    rw [sG] at h
    exact h
  -- Phase H: one more big append overflows the byte ceiling, is deferred,
  -- and triggers a flush over the 10002-record buffer.
  have sH := step_prod_defer_c 1000
    (((List.replicate 9999 emp ++ [bigLog]) ++ [bigLog]) ++ [bigLog]) []
    [[bigLog, bigLog, bigLog]] 0 0 false bigLog bigLog_small
    (by rw [bufferSize_bufG, bigLog_message_length]; norm_num [MAX_BUFFER_SIZE])
  have r10 : Reachable 1000
      (⟨((List.replicate 9999 emp ++ [bigLog]) ++ [bigLog]) ++ [bigLog], 0, [bigLog], true,
        [[bigLog, bigLog, bigLog]]⟩ : SysState) := by
    have h := Reachable.prod bigLog 0 r9 rfl
    rw [sH] at h
    exact h
  -- Phase I: the flush transmits all 10002 records.
  have sI := step_flush_c 1000
    (((List.replicate 9999 emp ++ [bigLog]) ++ [bigLog]) ++ [bigLog]) [bigLog]
    [[bigLog, bigLog, bigLog]] 0 true
    (List.append_ne_nil_of_right_ne_nil _ (List.cons_ne_nil bigLog []))
  have h := Reachable.flush r10
  rw [sI] at h
  exact h

/-! ### Claim theorems -/

/-- C1 counterexample: the claim that the buffer length never exceeds
10000 at the moment of any flush is false.  There is a reachable state
(reached by the schedulable trace of `reach_trace_final`, whose
deferred-retry admission lands exactly at the count ceiling so that its
discarded trigger never causes a flush) in which a transmitted batch
holds 10002 records. -/
theorem c1_counterexample :
    ∃ st : SysState, Reachable 1000 st ∧
      ∃ b ∈ st.transmitted, MAX_BUFFER_LENGTH < b.length := by
  refine ⟨_, reach_trace_final,
    orderLogs (((List.replicate 9999 emp ++ [bigLog]) ++ [bigLog]) ++ [bigLog]), ?_, ?_⟩
  · exact List.mem_cons_of_mem _ (List.mem_cons_self _ _)
  · rw [orderLogs_length]
    simp only [List.length_append, List.length_replicate, List.length_cons,
      List.length_nil]
    norm_num [MAX_BUFFER_LENGTH]

/-- C1 (amended): in every reachable state — in particular at the moment
of every flush — the cumulative size estimate of the buffer is strictly
below 1,048,576, and so is the size estimate of every transmitted batch;
the buffer length and every transmitted batch length stay within the
count ceiling 10,000 in every execution in which no deferred overflow
retry is executed (a deferred retry whose discarded trigger lands at the
ceiling can push the length beyond it, see the counterexample). -/
theorem c1_amended (interval : Int) (st st' : SysState)
    (h : Reachable interval st) (h' : ReachableNR interval st') :
    (bufferSize st.bufferedLogs < MAX_BUFFER_SIZE ∧
      ∀ b ∈ st.transmitted, bufferSize b < MAX_BUFFER_SIZE) ∧
    (st'.bufferedLogs.length ≤ MAX_BUFFER_LENGTH ∧
      ∀ b ∈ st'.transmitted, b.length ≤ MAX_BUFFER_LENGTH) := by
  obtain ⟨hs, _, _, ht⟩ := reachable_inv interval h
  obtain ⟨hl, _, hlt⟩ := reachableNR_inv interval h'
  exact ⟨⟨hs, fun b hb => (ht b hb).1⟩, hl, hlt⟩

/-- Witness for `c1_amended` at the initial state. -/
theorem c1_amended_witness :
    (bufferSize (initState 0).bufferedLogs < MAX_BUFFER_SIZE ∧
      ∀ b ∈ (initState 0).transmitted, bufferSize b < MAX_BUFFER_SIZE) ∧
    ((initState 0).bufferedLogs.length ≤ MAX_BUFFER_LENGTH ∧
      ∀ b ∈ (initState 0).transmitted, b.length ≤ MAX_BUFFER_LENGTH) :=
  c1_amended 1000 (initState 0) (initState 0) (.init 0) (.init 0)

/-- C2: a record whose message length is at least 262144 is rejected by
`addLog` with the whole state unchanged and result `false` (no trigger),
and in every reachable state every record of every submitted batch is
strictly below the per-record ceiling, so such a record is never present
in any transmitted batch. -/
theorem c2_oversize_rejected (interval : Int) (st st' : SysState) (now : Int)
    (log : Log) (h1 : MAX_EVENT_SIZE ≤ log.message.length)
    (h2 : Reachable interval st') :
    addLog interval st now log = (false, st) ∧
      ∀ b ∈ st'.transmitted, ∀ l ∈ b, l.message.length < MAX_EVENT_SIZE := by
  refine ⟨addLog_drop interval st now log h1, ?_⟩
  intro b hb l hl
  exact ((reachable_inv interval h2).2.2.2 b hb).2 l hl

/-- Witness for `c2_oversize_rejected` on a record of exactly 262144
characters, at the initial state. -/
theorem c2_oversize_rejected_witness :
    addLog 1000 (initState 0) 0 (⟨0, mkMsg 262144⟩ : Log) = (false, initState 0) ∧
      ∀ b ∈ (initState 0).transmitted, ∀ l ∈ b, l.message.length < MAX_EVENT_SIZE :=
  c2_oversize_rejected 1000 (initState 0) (initState 0) 0 ⟨0, mkMsg 262144⟩
    (by rw [show (⟨0, mkMsg 262144⟩ : Log).message = mkMsg 262144 from rfl, mkMsg_length]
        norm_num [MAX_EVENT_SIZE])
    (.init 0)

/-- C3: a record under the per-record ceiling whose admission would
reach the batch byte ceiling is not appended: the buffer is unchanged,
the same record is scheduled for an asynchronous retry (queued in
`pending`), and the call returns `true` (trigger a flush); executing a
scheduled retry never drops the record — afterwards it is in the buffer
(admitted) or still scheduled (deferred again). -/
theorem c3_overflow_deferred (interval : Int) (st st' : SysState) (now now' : Int)
    (log : Log) (rest : List Log)
    (h1 : log.message.length < MAX_EVENT_SIZE)
    (h2 : MAX_BUFFER_SIZE ≤ bufferSize st.bufferedLogs + log.message.length + 26)
    (h3 : st'.pending = log :: rest) :
    addLog interval st now log = (true, { st with pending := st.pending ++ [log] }) ∧
      (log ∈ (step interval st' (.retry now')).bufferedLogs ∨
        log ∈ (step interval st' (.retry now')).pending) := by
  refine ⟨addLog_defer interval st now log h1 h2, ?_⟩
  rw [step_retry_cons h3]
  unfold addLog
  split
  next hov =>
    exfalso
    simp only [logEventExceedsSize, decide_eq_true_eq] at hov
    omega
  · split
    · right
      simp
    · split
      · left
        simp
      · left
        simp

/-- Witness for `c3_overflow_deferred`: a fourth near-ceiling record is
deferred on a buffer of three, and a scheduled retry on an empty buffer
re-admits the record into the buffer. -/
theorem c3_overflow_deferred_witness :
    addLog 1000 ⟨[bigLog, bigLog, bigLog], 0, [], false, []⟩ 0 bigLog =
      (true, ⟨[bigLog, bigLog, bigLog], 0, [] ++ [bigLog], false, []⟩) ∧
      (bigLog ∈ (step 1000 (⟨[], 0, [bigLog], false, []⟩ : SysState) (.retry 0)).bufferedLogs ∨
        bigLog ∈ (step 1000 (⟨[], 0, [bigLog], false, []⟩ : SysState) (.retry 0)).pending) :=
  c3_overflow_deferred 1000 ⟨[bigLog, bigLog, bigLog], 0, [], false, []⟩
    ⟨[], 0, [bigLog], false, []⟩ 0 0 bigLog [] bigLog_small
    (by rw [show (⟨[bigLog, bigLog, bigLog], 0, [], false, []⟩ : SysState).bufferedLogs =
            [bigLog, bigLog, bigLog] from rfl,
          bufferSize_three_big, bigLog_message_length]
        norm_num [MAX_BUFFER_SIZE])
    rfl

/-- C4: on a non-empty batch rejected with a token conflict carrying
expected token `x`, `putEventLogs` adopts `x` as the held token, raises
nothing, and made exactly one submission (with the old token — the
rejected batch is not resubmitted by `putEventLogs` itself); the next
non-empty submission is then made under token `x`. -/
theorem c4_token_conflict (tok : Option String) (evs evs2 : List Log)
    (x : Option String) (o2 : PutOutcome)
    (h : evs ≠ []) (h2 : evs2 ≠ []) :
    putEventLogs tok evs (.invalidSequenceToken x) = ⟨x, none, [(tok, evs)]⟩ ∧
      (putEventLogs x evs2 o2).submissions = [(x, evs2)] := by
  constructor
  · unfold putEventLogs
    rw [if_neg (by simpa [List.length_eq_zero] using h)]
  · unfold putEventLogs
    rw [if_neg (by simpa [List.length_eq_zero] using h2)]
    cases o2 <;> rfl

/-- Witness for `c4_token_conflict` on concrete tokens and batches. -/
theorem c4_token_conflict_witness :
    putEventLogs (some "t0") [emp] (.invalidSequenceToken (some "t9")) =
        ⟨some "t9", none, [(some "t0", [emp])]⟩ ∧
      (putEventLogs (some "t9") [emp] (.success none)).submissions =
        [(some "t9", [emp])] :=
  c4_token_conflict (some "t0") [emp] [emp] (some "t9") (.success none)
    (List.cons_ne_nil emp []) (List.cons_ne_nil emp [])

/-- C5 (code bug, evaluation at the failing input): a flush over the
one-record batch `[⟨0, "x"⟩]` whose submission fails has its error
caught and a synthetic error record appended through the error sink —
but the `finally \x7b wipeLogs(); \x7d` then clears the buffer including
the freshly appended error record before anything ships it (the error
admission returned no trigger, so no inner flush ran).  The final state
has an empty buffer and an empty transmission history: the synthetic
error record is lost, never visible in the shipped log stream. -/
theorem c5_error_record_lost :
    flushExec 1000 2 ⟨[⟨0, "x"⟩], 0, [], true, []⟩ 0 [.failure "boom"] =
      ⟨[], 0, [], false, []⟩ := rfl

/-- C6 counterexample: an admitted append evaluation (record below both
ceilings) that reaches the count ceiling returns `true` but leaves the
elapsed-time reference point unchanged (`lastFlush` stays `0` instead of
being reset to `now = 5`), because the `||` short-circuits past the
periodic check. -/
theorem c6_counterexample :
    (addLog 1000 ⟨List.replicate 9999 emp, 0, [], false, []⟩ 5 emp).1 = true ∧
      (addLog 1000 ⟨List.replicate 9999 emp, 0, [], false, []⟩ 5 emp).2.lastFlush = 0 ∧
      (0 : Int) ≠ 5 ∧
      emp.message.length < MAX_EVENT_SIZE ∧
      bufferSize (List.replicate 9999 emp) + emp.message.length + 26 < MAX_BUFFER_SIZE := by
  have h2 : bufferSize (List.replicate 9999 emp) + emp.message.length + 26 <
      MAX_BUFFER_SIZE := by
    rw [bufferSize_replicate_9999, emp_message_length]
    norm_num [MAX_BUFFER_SIZE]
  have h3 : (List.replicate 9999 emp).length + 1 = MAX_BUFFER_LENGTH := by
    rw [List.length_replicate]
    norm_num [MAX_BUFFER_LENGTH]
  have h := addLog_admit_count_c 1000 (List.replicate 9999 emp) [] [] 0 5 false emp
    emp_small h2 h3
  refine ⟨by rw [h], by rw [h], by decide, emp_small, h2⟩

/-- C6 (amended): for an admitted record (below the per-record ceiling
and not hitting the byte ceiling) the call appends the record and
returns `true` exactly when the count ceiling is reached or more than
`interval` ms have elapsed since the last periodic check; the reference
point is reset to `now` on every such evaluation in which the count
ceiling is not reached, and left unchanged when it is reached (the
check is short-circuited away). -/
theorem c6_amended (interval : Int) (st : SysState) (now : Int) (log : Log)
    (h1 : log.message.length < MAX_EVENT_SIZE)
    (h2 : bufferSize st.bufferedLogs + log.message.length + 26 < MAX_BUFFER_SIZE) :
    (addLog interval st now log).2.bufferedLogs = st.bufferedLogs ++ [log] ∧
      ((addLog interval st now log).1 = true ↔
        st.bufferedLogs.length + 1 = MAX_BUFFER_LENGTH ∨ now - st.lastFlush > interval) ∧
      (st.bufferedLogs.length + 1 ≠ MAX_BUFFER_LENGTH →
        (addLog interval st now log).2.lastFlush = now) ∧
      (st.bufferedLogs.length + 1 = MAX_BUFFER_LENGTH →
        (addLog interval st now log).2.lastFlush = st.lastFlush) := by
  by_cases h3 : st.bufferedLogs.length + 1 = MAX_BUFFER_LENGTH
  · rw [addLog_admit_count interval st now log h1 h2 h3]
    refine ⟨rfl, ?_, fun hc => absurd h3 hc, fun _ => rfl⟩
    simp [h3]
  · by_cases h4 : now - st.lastFlush > interval
    · rw [addLog_admit_periodic interval st now log h1 h2 h3 h4]
      refine ⟨rfl, ?_, fun _ => rfl, fun hc => absurd hc h3⟩
      simp [h3, h4]
    · rw [addLog_admit_quiet interval st now log h1 h2 h3 h4]
      refine ⟨rfl, ?_, fun _ => rfl, fun hc => absurd hc h3⟩
      simp [h3, h4]

/-- Witness for `c6_amended` on an empty buffer at `now = 0`. -/
theorem c6_amended_witness :
    (addLog 1000 ⟨[], 0, [], false, []⟩ 0 emp).2.bufferedLogs = [] ++ [emp] ∧
      ((addLog 1000 ⟨[], 0, [], false, []⟩ 0 emp).1 = true ↔
        ([] : List Log).length + 1 = MAX_BUFFER_LENGTH ∨ (0 : Int) - 0 > 1000) ∧
      (([] : List Log).length + 1 ≠ MAX_BUFFER_LENGTH →
        (addLog 1000 ⟨[], 0, [], false, []⟩ 0 emp).2.lastFlush = 0) ∧
      (([] : List Log).length + 1 = MAX_BUFFER_LENGTH →
        (addLog 1000 ⟨[], 0, [], false, []⟩ 0 emp).2.lastFlush = 0) :=
  c6_amended 1000 ⟨[], 0, [], false, []⟩ 0 emp emp_small
    (by rw [bufferSize_nil, emp_message_length]
        norm_num [MAX_BUFFER_SIZE])

/-- C7: `orderLogs` produces a permutation of the buffer that is sorted
by ascending timestamp, and the sort is stable: for every timestamp the
subsequence of records carrying it is exactly the one of the input, in
the same order. -/
theorem c7_order_for_transmission (l : List Log) :
    (orderLogs l).Perm l ∧ (orderLogs l).Sorted logLe ∧
      ∀ t : Int, (orderLogs l).filter (fun x => x.timestamp == t) =
        l.filter (fun x => x.timestamp == t) :=
  ⟨orderLogs_perm l, orderLogs_sorted l, orderLogs_stable l⟩

/-- C8 counterexample: the input line `{"time":0}` parses as structured
data carrying a `time` field with value `0`, but the produced record's
timestamp is the current wall-clock time (`5`), not the carried value:
`value.time || Date.now()` treats the falsy `0` as absent. -/
theorem c8_counterexample :
    parseLine "\x7b\"time\":0\x7d" (some ⟨some 0⟩) 5 =
        ⟨5, "\x7b\"time\":0\x7d"⟩ ∧ (0 : Int) ≠ 5 :=
  ⟨rfl, by decide⟩

/-- C8 (amended): the produced record's message is always the raw input
line (also on parse failure), and its timestamp is the parsed `time`
value when the line parses with a `time` field that is truthy
(non-zero); otherwise — parse failure, missing `time` field, or falsy
`time` value `0` — it is the current wall-clock time. -/
theorem c8_amended (line : String) (parsed : Option JsValue) (now : Int) :
    (parseLine line parsed now).message = line ∧
      (parseLine line parsed now).timestamp =
        (match parsed with
         | some v =>
           (match v.time with
            | some t => if t = 0 then now else t
            | none => now)
         | none => now) := by
  cases parsed with
  | none => exact ⟨rfl, rfl⟩
  | some v =>
    cases v with
    | mk time =>
      cases time with
      | none => exact ⟨rfl, rfl⟩
      | some t => exact ⟨rfl, rfl⟩

/-- C10: executing a deferred (`setImmediate`) retry never requests a
flush and never transmits, whatever its inner `addLog` returns — the
boolean result of the retried append is discarded. -/
theorem c10_retry_trigger_discarded (interval : Int) (st : SysState) (now : Int) :
    (step interval st (.retry now)).flushReq = st.flushReq ∧
      (step interval st (.retry now)).transmitted = st.transmitted := by
  simp only [step]
  split
  · exact ⟨rfl, rfl⟩
  next log rest hpend =>
    exact ⟨(addLog_frame interval _ now log).2, (addLog_frame interval _ now log).1⟩

end PinoCloudwatch
